import Mathlib

/-!
Verification development for a set of controls-engineering course notebooks
(LQR tracking, frequency-domain analysis of a servomechanism, finite-horizon
linear-quadratic optimal control via a Riccati ODE, stochastic response, and
nonlinear analysis of an inverted pendulum).

The notebook-defined Python functions are shallowly embedded below.  Machine
floats are modelled by `ℝ` (or by `ℚ` where the code only performs field
arithmetic), numpy vectors by functions out of `Fin n`, numpy matrices by
`Matrix (Fin m) (Fin n)`, parameter dictionaries by structures whose field
defaults record the `params.get(key, default)` fallbacks used by the code,
and a Python function that can raise by an `Except`-valued function.
-/

set_option linter.unusedVariables false

namespace ControlNotebooks

open Real

/-! ## NumPy / SciPy primitives used by the notebooks -/

/-- Semantics of `np.clip(v, lo, hi)`: numpy computes
`minimum(maximum(v, lo), hi)` — the lower bound is applied first and there is
no check that `lo ≤ hi` (when `lo > hi`, the result is `hi`). -/
def npclip (v lo hi : ℝ) : ℝ := min (max v lo) hi

/-- Semantics of `np.sign` on a scalar. -/
noncomputable def npsign (v : ℝ) : ℝ := if 0 < v then 1 else if v < 0 then -1 else 0

/-- Semantics of `np.arctan2 y x`: the angle of the point `(x, y)` in the
half-open interval `(-π, π]`, modelled as the argument of the complex number
`x + y·i`. -/
noncomputable def arctan2 (y x : ℝ) : ℝ := Complex.arg (x + y * Complex.I)

/-! ## Frequency-domain notebook: the servomechanism -/

/-- Parameter dictionary for the servomechanism; one field per key of the
notebook's `servomech_params` dictionary (`'J'`, `'b'`, `'k'`, `'r'`, `'l'`,
`'eps'`). -/
structure ServomechParams where
  J : ℝ
  b : ℝ
  k : ℝ
  r : ℝ
  l : ℝ
  eps : ℝ

/-- The notebook's `servomech_params` dictionary:
`{'J': 100, 'b': 10, 'k': 1, 'r': 1, 'l': 2, 'eps': 0.01}`. -/
noncomputable def servomech_params : ServomechParams :=
  { J := 100, b := 10, k := 1, r := 1, l := 2, eps := 1/100 }

/-- The notebook's `servomech_update(t, x, u, params)`: state derivative
`[thetadot, 1/J * (-b*thetadot - k*r*sin(theta) + tau)]` with
`theta = x[0]`, `thetadot = x[1]`, `tau = u[0]`. -/
noncomputable def servomech_update (t : ℝ) (x : Fin 2 → ℝ) (u : Fin 1 → ℝ)
    (params : ServomechParams) : Fin 2 → ℝ :=
  ![x 1, 1/params.J * (-params.b * x 1 - params.k * params.r * Real.sin (x 0) + u 0)]

/-- The notebook's `servomech_output(t, x, u, params)`: `[l * x[0]]`. -/
noncomputable def servomech_output (t : ℝ) (x : Fin 2 → ℝ) (u : Fin 1 → ℝ)
    (params : ServomechParams) : Fin 1 → ℝ :=
  ![params.l * x 0]

/-! ## Inverted-pendulum notebook -/

/-- Parameter dictionary for the inverted pendulum.  The keys `'m'`, `'l'`,
`'b'`, `'g'` are read with mandatory lookups (`params['m']`, …); `'umax'` is
read with `params.get('umax', 1)`, so it is optional (`none` models an absent
key, which falls back to `1`). -/
structure InvpendParams where
  m : ℝ
  l : ℝ
  b : ℝ
  g : ℝ
  umax : Option ℝ := none

/-- The notebook's `invpend_params = {'m': 1, 'l': 1, 'b': 0.5, 'g': 1}`
(no `'umax'` key). -/
noncomputable def invpend_params : InvpendParams := { m := 1, l := 1, b := 1/2, g := 1 }

/-- The notebook's `invpend_update(t, x, u, params)`:
`usat = np.clip(u[0], -umax, umax)` with `umax = params.get('umax', 1)`, and
the returned derivative is
`[x[1], -b/m * x[1] + (g*l/m) * np.sin(x[0] + usat/m)]`. -/
noncomputable def invpend_update (t : ℝ) (x : Fin 2 → ℝ) (u : Fin 1 → ℝ)
    (params : InvpendParams) : Fin 2 → ℝ :=
  ![x 1,
    -params.b/params.m * x 1
      + (params.g * params.l / params.m)
        * Real.sin (x 0 +
            npclip (u 0) (-(params.umax.getD 1)) (params.umax.getD 1) / params.m)]

/-- Parameter dictionary of the proportional controller: the single key
`'kp'` is read with `params.get('kp', 1)`. -/
structure PropctrlParams where
  kp : ℝ := 1

/-- The notebook's `propctrl_output(t, x, u, params)`: `-kp * (u[0] - u[1])`,
where `u[0]` is the measured angle `theta` and `u[1]` the reference `r`.
The controller is stateless (`ct.nlsys(None, propctrl_output, ...)`), so the
state argument is an empty vector. -/
noncomputable def propctrl_output (t : ℝ) (x : Fin 0 → ℝ) (u : Fin 2 → ℝ)
    (params : PropctrlParams) : Fin 1 → ℝ :=
  ![-params.kp * (u 0 - u 1)]

/-- The closed-loop system
`clsys = ct.interconnect([invpend, propctrl], inputs=['r'], ...)`:
signals with equal names are connected, so the pendulum output `theta = x[0]`
feeds the controller's first input, the reference `r` its second, and the
controller output `tau` feeds the pendulum input.  The closed-loop state is
the pendulum state and the gain `kp` comes from the interconnection's
parameter dictionary. -/
noncomputable def clsys_update (kp : ℝ) (x : Fin 2 → ℝ) (r : ℝ)
    (params : InvpendParams) : Fin 2 → ℝ :=
  invpend_update 0 x (propctrl_output 0 ![] ![x 0, r] { kp := kp }) params

/-- The linearization `clsys.linearize([0, 0], [0], params={'kp': 10})`
computed by the notebook: the Jacobian of the closed-loop vector field
`clsys_update 10 · 0 invpend_params` at the state `[0, 0]` (the theorem
`closed_loop_stable_kp10` proves each entry is the corresponding partial
derivative). -/
noncomputable def clsysA : Matrix (Fin 2) (Fin 2) ℝ :=
  Matrix.of ![![0, 1], ![-9, -(1/2)]]

/-- The closed-loop dynamics matrix over `ℂ`, whose eigenvalues are the
closed-loop poles printed by the notebook. -/
noncomputable def clsysAC : Matrix (Fin 2) (Fin 2) ℂ := clsysA.map Complex.ofReal

/-- The state-feedback controller output `statefbk_output(t, x, u, params)`
of the inverted-pendulum notebook: `-K @ (u[0:2] - u[2:4])`, with the gain
row vector read via `params.get('K', np.array([0, 0]))` (the argument
default records that fallback). -/
noncomputable def statefbk_output (t : ℝ) (x : Fin 0 → ℝ) (u : Fin 4 → ℝ)
    (K : Fin 2 → ℝ := ![0, 0]) : Fin 1 → ℝ :=
  ![-(K 0 * (u 0 - u 2) + K 1 * (u 1 - u 3))]

/-! ## Linear-quadratic optimal control notebook: vehicle (kincar) model -/

/-- Parameter dictionary of the kincar functions: the code reads
`params.get('wheelbase', 3.)` and `params.get('dir', 'f')`; the structure
field defaults record those fallbacks, and the notebook never overrides
them (every call site passes `params={}`). -/
structure KincarParams where
  wheelbase : ℝ := 3
  dir : String := "f"

/-- The notebook's `_kincar_flat_forward(x, u, params)`: maps state
`x = (x, y, θ)` and input `u = (v, δ)` to the flat flag
`zflag[i][j]` (`i < 2` outputs, `j < 3` derivative orders), with
`thdot = (u[0]/b) * tan(u[1])`:
row 0 is `(x[0], u[0]·cos x[2], -u[0]·thdot·sin x[2])` and
row 1 is `(x[1], u[0]·sin x[2],  u[0]·thdot·cos x[2])`. -/
noncomputable def kincar_flat_forward (x : Fin 3 → ℝ) (u : Fin 2 → ℝ)
    (params : KincarParams) : Fin 2 → Fin 3 → ℝ :=
  ![![x 0, u 0 * Real.cos (x 2),
      -(u 0) * ((u 0 / params.wheelbase) * Real.tan (u 1)) * Real.sin (x 2)],
    ![x 1, u 0 * Real.sin (x 2),
      u 0 * ((u 0 / params.wheelbase) * Real.tan (u 1)) * Real.cos (x 2)]]

/-- The tail of `_kincar_flat_reverse` that runs once `x[2]` has been
determined (it is shared by the `'f'` and `'r'` branches):
`u[0] = zflag[0][1]·cos x[2] + zflag[1][1]·sin x[2]`,
`thdot_v = zflag[1][2]·cos x[2] - zflag[0][2]·sin x[2]`, and
`u[1] = arctan2(thdot_v, u[0]**2 / b)`; the returned state is
`(zflag[0][0], zflag[1][0], x[2])`. -/
noncomputable def kincar_flat_reverse_solve (zflag : Fin 2 → Fin 3 → ℝ)
    (b x2 : ℝ) : (Fin 3 → ℝ) × (Fin 2 → ℝ) :=
  (![zflag 0 0, zflag 1 0, x2],
   ![zflag 0 1 * Real.cos x2 + zflag 1 1 * Real.sin x2,
     arctan2 (zflag 1 2 * Real.cos x2 - zflag 0 2 * Real.sin x2)
       ((zflag 0 1 * Real.cos x2 + zflag 1 1 * Real.sin x2) ^ 2 / b)])

/-- The notebook's `_kincar_flat_reverse(zflag, params)`: recovers
`(x, u)` from the flat flag.  `x[2]` is `arctan2(zflag[1][1], zflag[0][1])`
when `dir == 'f'`, the flipped angle when `dir == 'r'`, and any other value
of `dir` raises `ValueError("unknown direction:", dir)` (modelled by
`Except.error`).  Then `u[0] = zflag[0][1]·cos x[2] + zflag[1][1]·sin x[2]`,
`thdot_v = zflag[1][2]·cos x[2] - zflag[0][2]·sin x[2]` and
`u[1] = arctan2(thdot_v, u[0]**2 / b)`. -/
noncomputable def kincar_flat_reverse (zflag : Fin 2 → Fin 3 → ℝ)
    (params : KincarParams) : Except String ((Fin 3 → ℝ) × (Fin 2 → ℝ)) :=
  if params.dir = "f" then
    Except.ok (kincar_flat_reverse_solve zflag params.wheelbase
      (arctan2 (zflag 1 1) (zflag 0 1)))
  else if params.dir = "r" then
    Except.ok (kincar_flat_reverse_solve zflag params.wheelbase
      (arctan2 (-(zflag 1 1)) (-(zflag 0 1))))
  else
    Except.error ("unknown direction: " ++ params.dir)

/-- The notebook's `_kincar_update(t, x, u, params)`: the vehicle dynamics
`[cos(x[2])·u[0], sin(x[2])·u[0], (u[0]/b)·tan(u[1])]`. -/
noncomputable def kincar_update (t : ℝ) (x : Fin 3 → ℝ) (u : Fin 2 → ℝ)
    (params : KincarParams) : Fin 3 → ℝ :=
  ![Real.cos (x 2) * u 0, Real.sin (x 2) * u 0,
    (u 0 / params.wheelbase) * Real.tan (u 1)]

/-- The notebook's `_kincar_output(t, x, u, params)`: the full state. -/
noncomputable def kincar_output (t : ℝ) (x : Fin 3 → ℝ) (u : Fin 2 → ℝ)
    (params : KincarParams) : Fin 3 → ℝ := x

/-! ## Riccati ODE of the linear-quadratic optimal control notebook -/

/-- `Qx = np.diag([1, 1, 1])`: the state cost. -/
def Qx : Matrix (Fin 3) (Fin 3) ℚ := Matrix.diagonal ![1, 1, 1]

/-- `Qu = np.diag([1, 1])`: the input cost. -/
def Qu : Matrix (Fin 2) (Fin 2) ℚ := Matrix.diagonal ![1, 1]

/-- `Pf = np.diag([1, 1, 1])`: the terminal cost. -/
def Pf : Matrix (Fin 3) (Fin 3) ℚ := Matrix.diagonal ![1, 1, 1]

/-- `Tf = 4`: the horizon of the LQ notebook. -/
def Tf : ℝ := 4

/-- Modelled from the spec: `sys = kincar.linearize(x0, u0)` delegates
linearization to the external control library.  The entries below are the
Jacobian of the embedded `kincar_update` at `x0 = [-40, -2, 0]`,
`u0 = [10, 0]` with wheelbase `b = 3` (there `cos x[2] = 1`, `sin x[2] = 0`,
`tan u[1] = 0`, `sec² u[1] = 1`), in exact arithmetic. -/
def sysA : Matrix (Fin 3) (Fin 3) ℚ :=
  Matrix.of ![![0, 0, 0], ![0, 0, 10], ![0, 0, 0]]

/-- Modelled from the spec: the input matrix of the same external
linearization (see `sysA`). -/
def sysB : Matrix (Fin 3) (Fin 2) ℚ :=
  Matrix.of ![![1, 0], ![0, 0], ![0, 10/3]]

/-- Modelled from the spec: `np.linalg.inv(Qu)` is a call into an external
numerical routine; on a 2×2 matrix its exact-arithmetic value is the
adjugate divided by the determinant. -/
def npinv2 (M : Matrix (Fin 2) (Fin 2) ℚ) : Matrix (Fin 2) (Fin 2) ℚ :=
  (M 0 0 * M 1 1 - M 0 1 * M 1 0)⁻¹ •
    Matrix.of ![![M 1 1, -(M 0 1)], ![-(M 1 0), M 0 0]]

/-- Row-major (numpy `order='C'`) flattening `reshape((-1))` of a 3×3
matrix into a 9-vector. -/
def reshapeVec (M : Matrix (Fin 3) (Fin 3) ℚ) : Fin 9 → ℚ :=
  fun k => M ⟨k.val / 3, by omega⟩ ⟨k.val % 3, by omega⟩

/-- Row-major `np.reshape(x, (3, 3))` of a 9-vector into a 3×3 matrix. -/
def reshapeMat (v : Fin 9 → ℚ) : Matrix (Fin 3) (Fin 3) ℚ :=
  Matrix.of fun i j => v ⟨3 * i.val + j.val, by omega⟩

/-- The notebook's `Pdot_reverse(t, x)`: reshapes the flat state `x` into the
matrix `P = np.reshape(x, (sys.nstates, sys.nstates))`, computes
`Prhs = P @ sys.A + sys.A.T @ P + Qx - P @ sys.B @ np.linalg.inv(Qu) @ sys.B.T @ P`
and returns `Prhs.reshape((-1))` (backward in time, hence no minus sign). -/
def Pdot_reverse (t : ℝ) (x : Fin 9 → ℚ) : Fin 9 → ℚ :=
  reshapeVec
    (reshapeMat x * sysA + sysA.transpose * reshapeMat x + Qx
      - reshapeMat x * sysB * npinv2 Qu * sysB.transpose * reshapeMat x)

/-- Modelled from the spec: the textbook Riccati right-hand side stated in
the notebook's markdown, `-Ṗ = P A + Aᵀ P − P B Qu⁻¹ Bᵀ P + Q_x`. -/
def riccatiRhsSpec (P : Matrix (Fin 3) (Fin 3) ℚ) : Matrix (Fin 3) (Fin 3) ℚ :=
  P * sysA + sysA.transpose * P - P * sysB * npinv2 Qu * sysB.transpose * P + Qx

/-- `P0 = np.reshape(Pf, (-1))`: the initial value handed to `solve_ivp`. -/
def P0 : Fin 9 → ℚ := reshapeVec Pf

/-- `Pfwd = np.reshape(Psol.y, (sys.nstates, sys.nstates, -1))`: the solver
columns (modelled as a list of flat 9-vectors, indexed by solver time)
reshaped into 3×3 matrices. -/
def Pfwd (ys : List (Fin 9 → ℚ)) : List (Matrix (Fin 3) (Fin 3) ℚ) :=
  ys.map reshapeMat

/-- `Prev = Pfwd[:, :, ::-1]`: the trajectory reversed along its time axis. -/
def Prev (ys : List (Fin 9 → ℚ)) : List (Matrix (Fin 3) (Fin 3) ℚ) :=
  (Pfwd ys).reverse

/-- `trev = Tf - Psol.t[::-1]`: the solver times reversed and reflected
about the horizon. -/
def trev (ts : List ℝ) : List ℝ :=
  ts.reverse.map (fun t => Tf - t)

/-! ## Notebook scripts as object traces and effect lists -/

/-- A library system object as seen by the notebook scripts: some opaque
system data plus a `name` attribute. -/
structure SysObj (α : Type) where
  data : α
  name : String

/-- The statement `P.name = 'P_ss'` that follows
`P = servomech.linearize([theta_e, 0], u_e, name='P_ss')` in the
frequency-domain notebook (flagged there with
`# TODO: fix in nlsys_improvements`). -/
def pNameAssign {α : Type} (o : SysObj α) : SysObj α := { o with name := "P_ss" }

/-- The statement `L.name = 'L'` after `L = P * C` in the inverted-pendulum
section of the frequency-domain notebook. -/
def lNameAssign {α : Type} (o : SysObj α) : SysObj α := { o with name := "L" }

/-- The statement `Cnew.name = 'Cnew'` after
`Cnew = (kp + kd*s) / (s/20 + 1)**2` in the high-frequency-rolloff cell. -/
def cnewNameAssign {α : Type} (o : SysObj α) : SysObj α := { o with name := "Cnew" }

/-- The statement `Lnew.name = 'Lnew'` after `Lnew = P * Cnew`. -/
def lnewNameAssign {α : Type} (o : SysObj α) : SysObj α := { o with name := "Lnew" }

/-- Transfer-function data of `Cnew = (kp + kd*s)/(s/20 + 1)**2` with
`kp = 10`, `kd = 2`: numerator `2s + 10` over denominator
`s²/400 + s/10 + 1` (coefficient lists, highest degree first). -/
def cnewTFData : List ℚ × List ℚ := ([2, 10], [1/400, 1/10, 1])

/-- A parameter value stored in a notebook parameter mapping. -/
inductive PValue where
  | num (q : ℚ)
  | str (s : String)
  | arr (v : List ℚ)
deriving DecidableEq

/-- Whether a parameter value is a scalar. -/
def PValue.isScalar : PValue → Bool
  | .num _ => true
  | _ => false

/-- The shape of a `ct.nlsys(updfcn, outfcn, ..., params=...)` construction:
which of the two functions are supplied (`None` becomes `none`) and the
parameter mapping passed at construction. -/
structure NLSysDecl (U O : Type) where
  updfcn : Option U
  outfcn : Option O
  params : List (String × PValue)

/-- The shape of the `fs.FlatSystem(forward, reverse, updfcn=..., outfcn=...)`
construction: the two flat maps are mandatory positional arguments, the
update/output functions are optional keywords. -/
structure FlatSystemDecl (F R U O : Type) where
  fwd : F
  rev : R
  updfcn : Option U
  outfcn : Option O

/-- `servomech = ct.nlsys(servomech_update, servomech_output, ...,
params=servomech_params, ...)`. -/
noncomputable def servomech_decl :
    NLSysDecl (ℝ → (Fin 2 → ℝ) → (Fin 1 → ℝ) → ServomechParams → Fin 2 → ℝ)
      (ℝ → (Fin 2 → ℝ) → (Fin 1 → ℝ) → ServomechParams → Fin 1 → ℝ) :=
  { updfcn := some servomech_update
    outfcn := some servomech_output
    params := [("J", .num 100), ("b", .num 10), ("k", .num 1), ("r", .num 1),
               ("l", .num 2), ("eps", .num (1/100))] }

/-- `invpend = ct.nlsys(invpend_update, states=..., inputs=..., outputs=...,
params=invpend_params, name='invpend')`: no output function is passed. -/
noncomputable def invpend_decl :
    NLSysDecl (ℝ → (Fin 2 → ℝ) → (Fin 1 → ℝ) → InvpendParams → Fin 2 → ℝ)
      (ℝ → (Fin 2 → ℝ) → (Fin 1 → ℝ) → InvpendParams → Fin 2 → ℝ) :=
  { updfcn := some invpend_update
    outfcn := none
    params := [("m", .num 1), ("l", .num 1), ("b", .num (1/2)), ("g", .num 1)] }

/-- `propctrl = ct.nlsys(None, propctrl_output, name="p_ctrl", ...)`:
the update function is `None` and no `params` argument is passed. -/
noncomputable def propctrl_decl :
    NLSysDecl (ℝ → (Fin 0 → ℝ) → (Fin 2 → ℝ) → PropctrlParams → Fin 0 → ℝ)
      (ℝ → (Fin 0 → ℝ) → (Fin 2 → ℝ) → PropctrlParams → Fin 1 → ℝ) :=
  { updfcn := none
    outfcn := some propctrl_output
    params := [] }

/-- `statefbk = ct.nlsys(None, statefbk_output, name="k_ctrl", ...)`. -/
noncomputable def statefbk_decl :
    NLSysDecl (ℝ → (Fin 0 → ℝ) → (Fin 4 → ℝ) → (Fin 2 → ℝ) → Fin 0 → ℝ)
      (ℝ → (Fin 0 → ℝ) → (Fin 4 → ℝ) → (Fin 2 → ℝ) → Fin 1 → ℝ) :=
  { updfcn := none
    outfcn := some (fun t x u K => statefbk_output t x u K)
    params := [] }

/-- `kincar = fs.FlatSystem(_kincar_flat_forward, _kincar_flat_reverse,
updfcn=_kincar_update, outfcn=_kincar_output, ...)`. -/
noncomputable def kincar_decl :
    FlatSystemDecl
      ((Fin 3 → ℝ) → (Fin 2 → ℝ) → KincarParams → Fin 2 → Fin 3 → ℝ)
      ((Fin 2 → Fin 3 → ℝ) → KincarParams → Except String ((Fin 3 → ℝ) × (Fin 2 → ℝ)))
      (ℝ → (Fin 3 → ℝ) → (Fin 2 → ℝ) → KincarParams → Fin 3 → ℝ)
      (ℝ → (Fin 3 → ℝ) → (Fin 2 → ℝ) → KincarParams → Fin 3 → ℝ) :=
  { fwd := kincar_flat_forward
    rev := kincar_flat_reverse
    updfcn := some kincar_update
    outfcn := some kincar_output }

/-- An externally visible effect of executing a notebook cell. -/
inductive Effect where
  | console : Effect
  | plot : Effect
  | pipInstall : Effect
deriving DecidableEq

/-- Whether an effect persists state outside the running notebook process:
printed values and in-memory plots do not; `pip install` writes the
installed package into the Python environment on disk, which outlives the
process. -/
def Effect.persists : Effect → Bool
  | .pipInstall => true
  | _ => false

/-- The guarded import cell shared by the frequency-domain and
inverted-pendulum notebooks — `try: import control as ct; print(...)` with
`except ImportError: !pip install control; import control as ct` — as a
function of whether the initial import succeeds: on success the cell prints
the library version; on `ImportError` it runs `pip install control`. -/
def importCellEffects : Bool → List Effect
  | true => [.console]
  | false => [.pipInstall]

/-- Kinds of externally visible output of each code cell of the
frequency-domain notebook after the import cell, in cell order (a cell that
only defines variables or functions contributes `[]`). -/
def freqNotebookCellEffects : List (List Effect) :=
  [[.console], [.console], [.plot], [.console], [.plot], [.plot],
   [.console, .plot], [.plot], [.plot], [.plot], [.plot], [.plot], [.plot],
   [.console, .plot], [.console], [.console], [.plot], [.console, .plot],
   [.plot], [.console, .plot], [.plot], [.plot], []]

/-- Same for the linear-quadratic optimal control notebook (its import cell
is a plain `import` block with no fallback). -/
def lqNotebookCellEffects : List (List Effect) :=
  [[], [], [], [.console], [], [.console], [.console], [.console], [.plot], []]

/-- Same for the stochastic-response notebook (plain import cell). -/
def stochNotebookCellEffects : List (List Effect) :=
  [[], [.plot], [.console], [.plot], [.console], [.plot], [.plot], [.plot],
   [.plot], [.plot], []]

/-- Same for the LQR tracking notebook (plain import cell). -/
def lqrTrackingCellEffects : List (List Effect) :=
  [[], [.console], [], [.console], [.plot], [.plot], [.console], [.console],
   [.console, .plot], []]

/-- Same for the inverted-pendulum notebook after its import cell. -/
def invpendNotebookCellEffects : List (List Effect) :=
  [[.console], [.plot], [.console], [.console], [.console], [.plot], [.plot],
   [.plot], [.console], [.console], [.console], [.plot], []]

end ControlNotebooks

namespace ControlNotebooks

open Real

/-! ## Theorems -/

/-- Helper: the inverted-pendulum derivative depends on the input only
through the clipped value `usat`. -/
theorem invpend_update_congr_clip (t : ℝ) (x : Fin 2 → ℝ) (p : InvpendParams)
    (u1 u2 : Fin 1 → ℝ)
    (h : npclip (u1 0) (-(p.umax.getD 1)) (p.umax.getD 1)
       = npclip (u2 0) (-(p.umax.getD 1)) (p.umax.getD 1)) :
    invpend_update t x u1 p = invpend_update t x u2 p := by
  unfold invpend_update
  rw [h]

/-- Helper: when `umax ≤ |v|`, clipping `v` and clipping `sign(v) * umax`
agree. -/
theorem npclip_sign_eq (v m : ℝ) (h : m ≤ |v|) :
    npclip v (-m) m = npclip (npsign v * m) (-m) m := by
  simp only [npclip, npsign]
  rcases lt_trichotomy 0 v with hv | hv | hv
  · have hmv : m ≤ v := by rwa [abs_of_pos hv] at h
    rw [if_pos hv, one_mul]
    rcases le_or_lt 0 m with h0 | h0
    · rw [max_eq_left (by linarith), max_eq_left (by linarith),
        min_eq_right hmv, min_self]
    · rw [min_eq_right (le_max_of_le_right (by linarith)),
        min_eq_right (le_max_of_le_right (by linarith))]
  · rw [← hv]
    norm_num
  · have hmv : m ≤ -v := by rwa [abs_of_neg hv] at h
    rw [if_neg (by linarith), if_pos hv, neg_one_mul]
    rcases le_or_lt 0 m with h0 | h0
    · rw [max_eq_right (by linarith), max_self]
    · rw [min_eq_right (le_max_of_le_right (by linarith)),
        min_eq_right (le_max_of_le_right (by linarith))]

/-- C10: input-saturation invariance of the inverted-pendulum dynamics.  For
every time, state and parameter dictionary (with `umax` read via
`params.get('umax', 1)`), two inputs whose first components clip to the same
value in `[-umax, umax]` give the same state derivative; in particular, any
input with `umax ≤ |u[0]|` gives the same derivative as the input with
`u[0]` replaced by `sign(u[0]) * umax`. -/
theorem invpend_saturation_invariance (t : ℝ) (x : Fin 2 → ℝ) (p : InvpendParams)
    (u1 u2 : Fin 1 → ℝ)
    (h : npclip (u1 0) (-(p.umax.getD 1)) (p.umax.getD 1)
       = npclip (u2 0) (-(p.umax.getD 1)) (p.umax.getD 1)) :
    invpend_update t x u1 p = invpend_update t x u2 p ∧
    ∀ u : Fin 1 → ℝ, p.umax.getD 1 ≤ |u 0| →
      invpend_update t x u p = invpend_update t x ![npsign (u 0) * p.umax.getD 1] p := by
  constructor
  · exact invpend_update_congr_clip t x p u1 u2 h
  · intro u hu
    refine invpend_update_congr_clip t x p u _ ?_
    have := npclip_sign_eq (u 0) (p.umax.getD 1) hu
    simpa using this

/-- Witness for C10 at a concrete input: with the default `umax = 1`, the
inputs `[5]` and `[2]` both clip to `1`, so they produce the same state
derivative at `t = 0`, `x = [0, 1]` with the notebook's parameters. -/
theorem invpend_saturation_invariance_witness :
    npclip ((![5] : Fin 1 → ℝ) 0) (-(invpend_params.umax.getD 1)) (invpend_params.umax.getD 1)
      = npclip ((![2] : Fin 1 → ℝ) 0) (-(invpend_params.umax.getD 1)) (invpend_params.umax.getD 1) ∧
    invpend_update 0 ![0, 1] ![5] invpend_params = invpend_update 0 ![0, 1] ![2] invpend_params := by
  have h : npclip ((![5] : Fin 1 → ℝ) 0) (-(invpend_params.umax.getD 1)) (invpend_params.umax.getD 1)
      = npclip ((![2] : Fin 1 → ℝ) 0) (-(invpend_params.umax.getD 1)) (invpend_params.umax.getD 1) := by
    simp [npclip, invpend_params]
  exact ⟨h, (invpend_saturation_invariance 0 ![0, 1] invpend_params ![5] ![2] h).1⟩

/-- Helper: the closed-loop vector field in explicit form, with the
notebook's pendulum parameters substituted. -/
theorem clsys_update_apply (kp : ℝ) (x : Fin 2 → ℝ) (r : ℝ) :
    clsys_update kp x r invpend_params =
      ![x 1, -(1/2) * x 1 + Real.sin (x 0 + npclip (-kp * (x 0 - r)) (-1) 1)] := by
  funext i
  fin_cases i <;>
    simp [clsys_update, invpend_update, propctrl_output, invpend_params]

/-- Helper: the characteristic polynomial of the closed-loop dynamics
matrix. -/
theorem det_charmatrix_clsys (z : ℂ) :
    Matrix.det (z • (1 : Matrix (Fin 2) (Fin 2) ℂ) - clsysAC) = z^2 + z/2 + 9 := by
  rw [Matrix.det_fin_two]
  simp [clsysAC, clsysA, Matrix.one_apply]
  ring

/-- Helper: every complex root of `z^2 + z/2 + 9` has negative real part. -/
theorem quadratic_root_re_neg (z : ℂ) (hz : z^2 + z/2 + 9 = 0) : z.re < 0 := by
  have h2 : 2*z^2 + z + 18 = 0 := by linear_combination 2*hz
  rw [Complex.ext_iff] at h2
  obtain ⟨hre, him⟩ := h2
  simp only [Complex.add_re, Complex.add_im, Complex.mul_re, Complex.mul_im,
    pow_two, Complex.re_ofNat, Complex.im_ofNat, Complex.zero_re,
    Complex.zero_im] at hre him
  have key : z.im * (4*z.re + 1) = 0 := by linear_combination him
  rcases mul_eq_zero.mp key with hb | ha
  · exfalso
    rw [hb] at hre
    nlinarith [sq_nonneg (2*z.re + 1/2)]
  · linarith

/-- C3: the closed-loop interconnection of `invpend` (with parameters
`m = 1`, `l = 1`, `b = 0.5`, `g = 1`, default `umax = 1`) and the
proportional controller `u = -kp*(theta - r)`, linearized at state `[0, 0]`
and input `[0]` with `kp = 10`, has all closed-loop poles with strictly
negative real part.  The first conjunct certifies that `clsysA` is the
Jacobian of the embedded closed-loop vector field at the origin (entry by
entry); the second says every eigenvalue of that matrix, i.e. every root of
`det(z·I - A)`, has negative real part. -/
theorem closed_loop_stable_kp10 :
    (HasDerivAt (fun θ : ℝ => clsys_update 10 ![θ, 0] 0 invpend_params 0) (clsysA 0 0) 0 ∧
     HasDerivAt (fun ω : ℝ => clsys_update 10 ![0, ω] 0 invpend_params 0) (clsysA 0 1) 0 ∧
     HasDerivAt (fun θ : ℝ => clsys_update 10 ![θ, 0] 0 invpend_params 1) (clsysA 1 0) 0 ∧
     HasDerivAt (fun ω : ℝ => clsys_update 10 ![0, ω] 0 invpend_params 1) (clsysA 1 1) 0) ∧
    ∀ z : ℂ, Matrix.det (z • (1 : Matrix (Fin 2) (Fin 2) ℂ) - clsysAC) = 0 → z.re < 0 := by
  have hA00 : clsysA 0 0 = 0 := by simp [clsysA]
  have hA01 : clsysA 0 1 = 1 := by simp [clsysA]
  have hA10 : clsysA 1 0 = -9 := by simp [clsysA]
  have hA11 : clsysA 1 1 = -(1/2) := by simp [clsysA]
  refine ⟨⟨?_, ?_, ?_, ?_⟩, ?_⟩
  · rw [hA00]
    have heq : (fun θ : ℝ => clsys_update 10 ![θ, 0] 0 invpend_params 0) = fun _ => (0:ℝ) := by
      funext θ
      rw [clsys_update_apply]
      simp
    rw [heq]
    exact hasDerivAt_const 0 0
  · rw [hA01]
    have heq : (fun ω : ℝ => clsys_update 10 ![0, ω] 0 invpend_params 0) = fun ω => ω := by
      funext ω
      rw [clsys_update_apply]
      simp
    rw [heq]
    exact hasDerivAt_id 0
  · rw [hA10]
    have hg : HasDerivAt (fun θ : ℝ => -Real.sin (9 * θ)) (-9) 0 := by
      have h1 : HasDerivAt (fun θ : ℝ => (9 : ℝ) * θ) 9 0 := by
        simpa using (hasDerivAt_id (0:ℝ)).const_mul (9 : ℝ)
      have h2 := ((Real.hasDerivAt_sin ((9:ℝ) * 0)).comp 0 h1).neg
      simpa using h2
    have hev : (fun θ : ℝ => clsys_update 10 ![θ, 0] 0 invpend_params 1)
        =ᶠ[nhds 0] (fun θ : ℝ => -Real.sin (9 * θ)) := by
      refine Filter.eventuallyEq_of_mem (Ioo_mem_nhds (by norm_num) (by norm_num) :
        Set.Ioo (-(1/10) : ℝ) (1/10) ∈ nhds 0) fun θ hθ => ?_
      obtain ⟨h1, h2⟩ := hθ
      rw [clsys_update_apply]
      simp only [Matrix.cons_val_one, Matrix.head_cons, Matrix.cons_val_zero]
      rw [show npclip (-10 * (θ - 0)) (-1) 1 = -10 * θ from by
        simp only [npclip, sub_zero]
        rw [max_eq_left (by linarith), min_eq_left (by linarith)]]
      rw [show θ + -10 * θ = -(9 * θ) from by ring, Real.sin_neg]
      ring
    exact hg.congr_of_eventuallyEq hev
  · rw [hA11]
    have heq : (fun ω : ℝ => clsys_update 10 ![0, ω] 0 invpend_params 1)
        = fun ω => -(1/2) * ω := by
      funext ω
      rw [clsys_update_apply]
      simp [npclip]
    rw [heq]
    simpa using (hasDerivAt_id (0:ℝ)).const_mul (-(1/2) : ℝ)
  · intro z hz
    rw [det_charmatrix_clsys] at hz
    exact quadratic_root_re_neg z hz

/-- Witness for C3 at a concrete pole: `z = -1/4 + (√143/4)·i` is a root of
the closed-loop characteristic polynomial, and the theorem places it in the
open left half plane. -/
theorem closed_loop_stable_kp10_witness :
    Matrix.det (((-1/4 : ℂ) + (Real.sqrt 143 / 4 : ℝ) * Complex.I)
        • (1 : Matrix (Fin 2) (Fin 2) ℂ) - clsysAC) = 0 ∧
    ((-1/4 : ℂ) + (Real.sqrt 143 / 4 : ℝ) * Complex.I).re < 0 := by
  have hs : ((Real.sqrt 143 : ℝ) : ℂ)^2 = 143 := by
    rw [← Complex.ofReal_pow, Real.sq_sqrt (by norm_num : (143:ℝ) ≥ 0)]
    norm_num
  have hdet : Matrix.det (((-1/4 : ℂ) + (Real.sqrt 143 / 4 : ℝ) * Complex.I)
      • (1 : Matrix (Fin 2) (Fin 2) ℂ) - clsysAC) = 0 := by
    rw [det_charmatrix_clsys]
    push_cast
    linear_combination (((Real.sqrt 143 : ℝ) : ℂ)^2/16) * Complex.I_sq - (1/16) * hs
  exact ⟨hdet, closed_loop_stable_kp10.2 _ hdet⟩

/-- C9: equilibrium property of the servomechanism.  For every time `t` and
angle `theta_e`, with the notebook parameters (`J = 100`, `b = 10`, `k = 1`,
`r = 1`), the input `u_e = k * r * sin(theta_e)` makes `[theta_e, 0]` an
equilibrium: the state derivative returned by `servomech_update` is `[0, 0]`. -/
theorem servomech_equilibrium (t theta_e : ℝ) :
    servomech_update t ![theta_e, 0]
      ![servomech_params.k * servomech_params.r * Real.sin theta_e]
      servomech_params = ![0, 0] := by
  funext i
  fin_cases i <;>
    simp [servomech_update, servomech_params]

/-- Helper: `arctan2` recovers the angle of a point given in polar form with
positive radius and angle in `(-π, π]`. -/
theorem arctan2_polar {r θ : ℝ} (hr : 0 < r) (hθ : θ ∈ Set.Ioc (-π) π) :
    arctan2 (r * Real.sin θ) (r * Real.cos θ) = θ := by
  unfold arctan2
  have hrw : ((r * Real.cos θ : ℝ) : ℂ) + ((r * Real.sin θ : ℝ) : ℂ) * Complex.I
      = (r : ℂ) * (Complex.cos θ + Complex.sin θ * Complex.I) := by
    push_cast
    ring
  rw [hrw]
  exact Complex.arg_mul_cos_add_sin_mul_I hr hθ

/-- Helper: `arctan2 (c*y) c = arctan y` for `c > 0`. -/
theorem arctan2_of_pos (c y : ℝ) (hc : 0 < c) :
    arctan2 (c * y) c = Real.arctan y := by
  have hs : 0 < Real.sqrt (1 + y ^ 2) := Real.sqrt_pos.mpr (by positivity)
  have hmem : Real.arctan y ∈ Set.Ioc (-π) π := by
    constructor
    · have h1 := Real.neg_pi_div_two_lt_arctan y
      have h2 := Real.pi_pos
      linarith
    · have h1 := Real.arctan_lt_pi_div_two y
      have h2 := Real.pi_pos
      linarith
  have key := arctan2_polar (mul_pos hc hs) hmem
  rw [Real.sin_arctan, Real.cos_arctan] at key
  rw [show c * Real.sqrt (1 + y ^ 2) * (y / Real.sqrt (1 + y ^ 2)) = c * y from by
        field_simp
        ring,
      show c * Real.sqrt (1 + y ^ 2) * (1 / Real.sqrt (1 + y ^ 2)) = c from by
        field_simp] at key
  exact key

/-- Helper: on `dir = 'f'` the reverse flat map takes the first branch. -/
theorem kincar_flat_reverse_f (zflag : Fin 2 → Fin 3 → ℝ) (b : ℝ) :
    kincar_flat_reverse zflag { wheelbase := b, dir := "f" } =
      Except.ok (kincar_flat_reverse_solve zflag b
        (arctan2 (zflag 1 1) (zflag 0 1))) := by
  simp [kincar_flat_reverse]

/-- C8: round-trip of the differential-flatness maps.  For every state `x`
and input `u` with forward velocity `u 0 > 0`, steering angle
`u 1 ∈ (-π/2, π/2)` and heading `x 2 ∈ (-π, π]`, under the default
parameters (`wheelbase = 3`, `dir = 'f'`),
`_kincar_flat_reverse(_kincar_flat_forward(x, u))` returns exactly `(x, u)`. -/
theorem kincar_flat_roundtrip (x : Fin 3 → ℝ) (u : Fin 2 → ℝ)
    (h0 : 0 < u 0) (h1 : u 1 ∈ Set.Ioo (-(π/2)) (π/2))
    (h2 : x 2 ∈ Set.Ioc (-π) π) :
    kincar_flat_reverse (kincar_flat_forward x u {}) {} = Except.ok (x, u) := by
  obtain ⟨h1a, h1b⟩ := h1
  set zf := kincar_flat_forward x u {} with hzf
  have z00 : zf 0 0 = x 0 := rfl
  have z01 : zf 0 1 = u 0 * Real.cos (x 2) := rfl
  have z02 : zf 0 2 = -(u 0) * ((u 0 / 3) * Real.tan (u 1)) * Real.sin (x 2) := rfl
  have z10 : zf 1 0 = x 1 := rfl
  have z11 : zf 1 1 = u 0 * Real.sin (x 2) := rfl
  have z12 : zf 1 2 = u 0 * ((u 0 / 3) * Real.tan (u 1)) * Real.cos (x 2) := rfl
  have hpar : ({} : KincarParams) = { wheelbase := 3, dir := "f" } := rfl
  rw [hpar, kincar_flat_reverse_f]
  have hx2 : arctan2 (zf 1 1) (zf 0 1) = x 2 := by
    rw [z11, z01]
    exact arctan2_polar h0 h2
  rw [hx2]
  have hu0 : zf 0 1 * Real.cos (x 2) + zf 1 1 * Real.sin (x 2) = u 0 := by
    rw [z01, z11]
    linear_combination (u 0) * Real.sin_sq_add_cos_sq (x 2)
  have hth : zf 1 2 * Real.cos (x 2) - zf 0 2 * Real.sin (x 2)
      = u 0 ^ 2 / 3 * Real.tan (u 1) := by
    rw [z02, z12]
    linear_combination (u 0 * ((u 0 / 3) * Real.tan (u 1))) * Real.sin_sq_add_cos_sq (x 2)
  have hu1 : arctan2 (zf 1 2 * Real.cos (x 2) - zf 0 2 * Real.sin (x 2))
      ((zf 0 1 * Real.cos (x 2) + zf 1 1 * Real.sin (x 2)) ^ 2 / 3) = u 1 := by
    rw [hth, hu0]
    have hc : (0:ℝ) < u 0 ^ 2 / 3 := by positivity
    exact (arctan2_of_pos (u 0 ^ 2 / 3) (Real.tan (u 1)) hc).trans
      (Real.arctan_tan h1a h1b)
  have hX : ![zf 0 0, zf 1 0, x 2] = x := by
    funext i
    fin_cases i
    · exact z00
    · exact z10
    · rfl
  have hU : ![zf 0 1 * Real.cos (x 2) + zf 1 1 * Real.sin (x 2),
      arctan2 (zf 1 2 * Real.cos (x 2) - zf 0 2 * Real.sin (x 2))
        ((zf 0 1 * Real.cos (x 2) + zf 1 1 * Real.sin (x 2)) ^ 2 / 3)] = u := by
    funext i
    fin_cases i
    · exact hu0
    · exact hu1
  unfold kincar_flat_reverse_solve
  rw [hX, hU]

/-- Witness for C8 at the concrete point `x = (0, 0, 0)`, `u = (1, 0)`. -/
theorem kincar_flat_roundtrip_witness :
    ((0:ℝ) < (![1, 0] : Fin 2 → ℝ) 0 ∧
     (![1, 0] : Fin 2 → ℝ) 1 ∈ Set.Ioo (-(π/2)) (π/2) ∧
     (![0, 0, 0] : Fin 3 → ℝ) 2 ∈ Set.Ioc (-π) π) ∧
    kincar_flat_reverse (kincar_flat_forward ![0, 0, 0] ![1, 0] {}) {}
      = Except.ok (![0, 0, 0], ![1, 0]) := by
  have h0 : (0:ℝ) < (![1, 0] : Fin 2 → ℝ) 0 := by norm_num
  have h1 : (![1, 0] : Fin 2 → ℝ) 1 ∈ Set.Ioo (-(π/2)) (π/2) := by
    constructor <;> simp [Real.pi_pos, Real.pi_div_two_pos]
  have h2 : (![0, 0, 0] : Fin 3 → ℝ) 2 ∈ Set.Ioc (-π) π := by
    constructor <;> simp [Real.pi_pos, Real.pi_pos.le]
  exact ⟨⟨h0, h1, h2⟩, kincar_flat_roundtrip ![0, 0, 0] ![1, 0] h0 h1 h2⟩

/-- Counterexample for C2: `_kincar_flat_reverse` raises its own
`ValueError` as soon as the `dir` parameter is anything but `'f'` or `'r'` —
at the concrete flat flag `0` and `dir = 'x'` it does not return normally. -/
theorem kincar_flat_reverse_unknown_dir :
    kincar_flat_reverse (fun _ _ => 0) { dir := "x" }
      = Except.error ("unknown direction: " ++ "x") := by
  rfl

/-- C2 (amended): the only notebook-defined function with its own error path
is `_kincar_flat_reverse`, which raises exactly when `dir ∉ {'f', 'r'}` and
returns normally otherwise; and the guarded import cells handle
`ImportError` programmatically by falling back to `pip install` instead of
propagating it. -/
theorem notebook_error_handling (zflag : Fin 2 → Fin 3 → ℝ) (p : KincarParams)
    (hf : p.dir ≠ "f") (hr : p.dir ≠ "r") :
    kincar_flat_reverse zflag p = Except.error ("unknown direction: " ++ p.dir) ∧
    (∀ q : KincarParams, q.dir = "f" ∨ q.dir = "r" →
      ∃ xu, kincar_flat_reverse zflag q = Except.ok xu) ∧
    importCellEffects true = [Effect.console] ∧
    importCellEffects false = [Effect.pipInstall] := by
  refine ⟨?_, ?_, rfl, rfl⟩
  · unfold kincar_flat_reverse
    rw [if_neg hf, if_neg hr]
  · intro q hq
    rcases eq_or_ne q.dir "f" with h' | h'
    · exact ⟨_, by unfold kincar_flat_reverse; rw [if_pos h']⟩
    · rcases hq with h | h
      · exact absurd h h'
      · exact ⟨_, by unfold kincar_flat_reverse; rw [if_neg h', if_pos h]⟩

/-- Witness for C2 (amended) at the concrete parameter value `dir = 'b'`. -/
theorem notebook_error_handling_witness :
    (({ dir := "b" } : KincarParams).dir ≠ "f" ∧
     ({ dir := "b" } : KincarParams).dir ≠ "r") ∧
    kincar_flat_reverse (fun _ _ => 0) { dir := "b" }
      = Except.error ("unknown direction: " ++ ({ dir := "b" } : KincarParams).dir) := by
  refine ⟨⟨?_, ?_⟩, (notebook_error_handling (fun _ _ => 0) { dir := "b" }
    ?_ ?_).1⟩ <;> decide

/-- Helper: row-major unflattening inverts row-major flattening. -/
theorem reshapeMat_reshapeVec (M : Matrix (Fin 3) (Fin 3) ℚ) :
    reshapeMat (reshapeVec M) = M := by
  funext i j
  fin_cases i <;> fin_cases j <;> rfl

/-- Counterexample for C1: evaluated at the concrete flat state
`reshape(Pf)`, the notebook-defined `Pdot_reverse` itself produces the
(nonzero) Riccati right-hand side `A + Aᵀ + Qx - B Bᵀ` — the formula is
computed by notebook code, not returned by an external library call. -/
theorem Pdot_reverse_riccati_value :
    Pdot_reverse 0 (reshapeVec Pf)
      = reshapeVec (Matrix.of ![![0, 0, 0], ![0, 1, 10], ![0, 10, -(91/9)]]) := by
  unfold Pdot_reverse
  rw [reshapeMat_reshapeVec]
  funext k
  fin_cases k <;>
    norm_num [reshapeVec, Pf, Qx, Qu, sysA, sysB, npinv2,
      Matrix.mul_apply, Fin.sum_univ_three, Matrix.diagonal, Matrix.vecHead,
      Matrix.vecTail, Matrix.transpose_apply, Function.comp, Fin.ext_iff]

/-- C1 (amended): in the linear-quadratic optimal control notebook the
Riccati right-hand side is computed directly by the notebook-defined
function `Pdot_reverse`, which evaluates
`P@A + A.T@P + Qx - P@B@inv(Qu)@B.T@P`; for every `t` and flat state `x`
its value is exactly the textbook Riccati right-hand side stated in the
notebook's markdown (only the ODE integration, the linearization producing
`A` and `B`, and the matrix inversion are external calls). -/
theorem Pdot_reverse_eq_riccati (t : ℝ) (x : Fin 9 → ℚ) :
    Pdot_reverse t x = reshapeVec (riccatiRhsSpec (reshapeMat x)) := by
  unfold Pdot_reverse riccatiRhsSpec
  abel_nf

/-- C4: the Riccati solution trajectory is integrated backward in time and
then reordered to be indexed by increasing time.  For any solver output —
nondecreasing times `ts` starting at `0` and ending at `Tf`, columns `ys`
whose first entry is the initial value `P0 = reshape(Pf)` — the reordered
time index `trev = Tf - ts[::-1]` is nondecreasing from `0` to `Tf`, and the
entry of the reordered trajectory `Prev = Pfwd[:, :, ::-1]` at the final
time equals the terminal condition `Pf` exactly. -/
theorem riccati_reordering (ts : List ℝ) (ys : List (Fin 9 → ℚ))
    (hchain : ts.Chain' (· ≤ ·)) (hhead : ts.head? = some 0)
    (hlast : ts.getLast? = some Tf) (hy0 : ys.head? = some P0) :
    (trev ts).Chain' (· ≤ ·) ∧ (trev ts).head? = some 0 ∧
    (trev ts).getLast? = some Tf ∧ (Prev ys).getLast? = some Pf := by
  refine ⟨?_, ?_, ?_, ?_⟩
  · unfold trev
    rw [List.chain'_map, List.chain'_reverse]
    exact hchain.imp (fun a b h => sub_le_sub_left h Tf)
  · unfold trev
    rw [List.head?_map, List.head?_reverse, hlast]
    simp [Tf]
  · unfold trev
    rw [List.getLast?_map, List.getLast?_reverse, hhead]
    simp [Tf]
  · unfold Prev Pfwd
    rw [List.getLast?_reverse, List.head?_map, hy0]
    simp [P0, reshapeMat_reshapeVec]

/-- Witness for C4 on a concrete three-step solver output. -/
theorem riccati_reordering_witness :
    (([0, 2, 4] : List ℝ).Chain' (· ≤ ·) ∧
     ([0, 2, 4] : List ℝ).head? = some 0 ∧
     ([0, 2, 4] : List ℝ).getLast? = some Tf ∧
     ([P0, fun _ => 5, fun _ => 7] : List (Fin 9 → ℚ)).head? = some P0) ∧
    ((trev [0, 2, 4]).Chain' (· ≤ ·) ∧ (trev [0, 2, 4]).head? = some 0 ∧
     (trev [0, 2, 4]).getLast? = some Tf ∧
     (Prev [P0, fun _ => 5, fun _ => 7]).getLast? = some Pf) := by
  have hchain : ([0, 2, 4] : List ℝ).Chain' (· ≤ ·) := by
    norm_num [List.chain'_cons]
  exact ⟨⟨hchain, rfl, rfl, rfl⟩,
    riccati_reordering [0, 2, 4] [P0, fun _ => 5, fun _ => 7] hchain rfl rfl rfl⟩

/-- Counterexample for C5: the high-frequency-rolloff cell executes
`Cnew.name = 'Cnew'` after `Cnew` has been constructed; applied to the
constructed object (with a concrete library-generated name `sys[3]`), the
assignment changes the object, so the object is not immutable after
construction. -/
theorem lti_name_assigned_after_construction :
    cnewNameAssign (⟨cnewTFData, "sys[3]"⟩ : SysObj (List ℚ × List ℚ))
      ≠ ⟨cnewTFData, "sys[3]"⟩ := by
  intro h
  have hname := congrArg SysObj.name h
  simp [cnewNameAssign] at hname

/-- C5 (amended): after construction the notebooks never assign to the
system data of an LTI object; the only post-construction attribute
assignments are the four `name` assignments (`P.name = 'P_ss'`,
`L.name = 'L'`, `Cnew.name = 'Cnew'`, `Lnew.name = 'Lnew'`), each of which
leaves the system data unchanged — and the `P` assignment rewrites the very
name already passed to `linearize`, so on that object it is the identity. -/
theorem lti_assignments_only_rename {α : Type} (o : SysObj α) :
    (pNameAssign o).data = o.data ∧ (pNameAssign o).name = "P_ss" ∧
    (lNameAssign o).data = o.data ∧ (lNameAssign o).name = "L" ∧
    (cnewNameAssign o).data = o.data ∧ (cnewNameAssign o).name = "Cnew" ∧
    (lnewNameAssign o).data = o.data ∧ (lnewNameAssign o).name = "Lnew" ∧
    pNameAssign { o with name := "P_ss" } = { o with name := "P_ss" } :=
  ⟨rfl, rfl, rfl, rfl, rfl, rfl, rfl, rfl, rfl⟩

/-- Counterexample for C6: `propctrl` is constructed as
`ct.nlsys(None, propctrl_output, ...)` — its update function is absent, so
not every nonlinear-system construction supplies both functions. -/
theorem propctrl_updfcn_is_none : propctrl_decl.updfcn = none := rfl

/-- C6 (amended): every nonlinear system constructed in the notebooks
supplies at least one of an update or an output function, but not always
both (`propctrl` and `statefbk` pass `None` for the update function;
`invpend` passes no output function); the parameter mappings passed at
construction are scalar-valued, but not every parameter consumed is a
scalar: `_kincar_flat_reverse` reads the string-valued `dir` parameter
(default `'f'`) and `statefbk_output` the array-valued gain `K`
(default `np.array([0, 0])`). -/
theorem nlsys_constructions_shape :
    propctrl_decl.updfcn = none ∧ propctrl_decl.outfcn.isSome = true ∧
    statefbk_decl.updfcn = none ∧ statefbk_decl.outfcn.isSome = true ∧
    invpend_decl.outfcn = none ∧ invpend_decl.updfcn.isSome = true ∧
    servomech_decl.updfcn.isSome = true ∧ servomech_decl.outfcn.isSome = true ∧
    kincar_decl.updfcn.isSome = true ∧ kincar_decl.outfcn.isSome = true ∧
    (servomech_decl.params.all fun kv => kv.2.isScalar) = true ∧
    (invpend_decl.params.all fun kv => kv.2.isScalar) = true ∧
    ({} : KincarParams).dir = "f" ∧
    (fun t x u => statefbk_output t x u)
      = (fun t x u => statefbk_output t x u ![0, 0]) :=
  ⟨rfl, rfl, rfl, rfl, rfl, rfl, rfl, rfl, rfl, rfl, rfl, rfl, rfl, rfl⟩

/-- Counterexample for C7: the fallback path of the guarded import cells
(taken when `import control` raises `ImportError`) runs
`!pip install control`, which persists state outside the running process. -/
theorem import_fallback_persists :
    (importCellEffects false).any Effect.persists = true := rfl

/-- C7 (amended): every non-import cell of the five notebooks only prints
to the console or draws in-memory plots — no cell writes a file — and the
sole persisting effect is the `pip install` run by the import fallback path
when the import of the control library fails. -/
theorem notebook_cells_do_not_persist :
    ((freqNotebookCellEffects ++ lqNotebookCellEffects ++ stochNotebookCellEffects
        ++ lqrTrackingCellEffects ++ invpendNotebookCellEffects).all
      fun cell => cell.all fun e => !e.persists) = true ∧
    ((importCellEffects true).all fun e => !e.persists) = true ∧
    importCellEffects false = [Effect.pipInstall] ∧
    Effect.pipInstall.persists = true := by
  refine ⟨by decide, rfl, rfl, rfl⟩

end ControlNotebooks
